import Mathlib

/-!
Verification development for the pikee document pipeline
(`pikee/pipeline/services/chunker.py`, `pikee/pipeline/services/tagger.py`,
`pikee/pipeline/models/chunk.py`, `pikee/pipeline/models/atom.py`).

Python strings are embedded as `List Char` (a Python `str` is a sequence of
code points).  Machine integers are embedded as `Int`/`Nat` (Python ints are
unbounded, so no wrap-around modelling is needed).  Fallible code returns
`Option`/`Except`.  The external text-generation capability
(`llm_client.generate_content`) is modelled as an oracle: a list of outcomes,
one per call, where an outcome is either a raised exception (`Except.error`)
or a response string (`Except.ok`).

The low-level fixed-rule splitter used by both chunkers is
`langchain_text_splitters.RecursiveCharacterTextSplitter` (imported at
`chunker.py` line 9), configured with `keep_separator=False`,
`add_start_index=True`, `strip_whitespace=True`.  Its algorithm
(`_split_text_with_regex`, `_merge_splits`, `_split_text`,
`create_documents`, and the `chunk_overlap > chunk_size` constructor check)
is embedded below from the library's source, since the repository delegates
to it.
-/

namespace Pikee

/-- A Python `str`, embedded as its sequence of characters. -/
abbrev PyStr := List Char

/-- `str.strip()` on the left: drop leading whitespace. -/
def lstripWs (s : PyStr) : PyStr := s.dropWhile Char.isWhitespace

/-- Python `str.strip()`: drop leading and trailing whitespace. -/
def pyStrip (s : PyStr) : PyStr :=
  ((s.dropWhile Char.isWhitespace).reverse.dropWhile Char.isWhitespace).reverse

/-- First index at which `pat` occurs in `s` (leftmost match), like the
start of `re.search` with a literal pattern / `str.find`. -/
def findSubIdx (s : PyStr) (pat : PyStr) : Option Nat :=
  match s with
  | [] => if pat = [] then some 0 else none
  | c :: cs =>
    if pat.isPrefixOf (c :: cs) then some 0
    else (findSubIdx cs pat).map (· + 1)

/-- Whether `pat` occurs in `s` (`re.search` with an escaped literal). -/
def containsSub (s : PyStr) (pat : PyStr) : Bool := (findSubIdx s pat).isSome

/-- Python `text.find(sub, start)` for `start ≥ 0`: index of the first
occurrence of `sub` at or after `start`, or `-1`. -/
def pyFindFrom (s : PyStr) (sub : PyStr) (start : Nat) : Int :=
  match findSubIdx (s.drop start) sub with
  | some i => (start : Int) + (i : Int)
  | none => -1

/-- Python `text.split(sep)` for a non-empty separator `sep`
(also `re.split` with the escaped literal): split on every non-overlapping
leftmost occurrence, keeping empty pieces.  Fuel-driven; `text.length + 1`
fuel always suffices since every step consumes at least one character. -/
def splitOnSubF (sep : PyStr) : Nat → PyStr → List PyStr
  | 0, text => [text]
  | fuel + 1, text =>
    match findSubIdx text sep with
    | none => [text]
    | some i => text.take i :: splitOnSubF sep fuel (text.drop (i + sep.length))

/-- Python `text.split(sep)`, non-empty `sep`. -/
def splitOnSub (sep text : PyStr) : List PyStr :=
  splitOnSubF sep (text.length + 1) text

/-- `sep.join(parts)` / `"\n".join(...)`. -/
def joinWith (sep : PyStr) (parts : List PyStr) : PyStr :=
  List.intercalate sep parts

/-- Digits-to-number, the value of Python `int` on a non-empty digit string. -/
def digitsToNat (ds : PyStr) : Nat :=
  ds.foldl (fun acc c => acc * 10 + (c.toNat - 48)) 0

theorem length_dropWhile_le_pikee {α : Type} (p : α → Bool) (l : List α) :
    (l.dropWhile p).length ≤ l.length := by
  induction l with
  | nil => simp [List.dropWhile]
  | cons a l ih =>
    simp only [List.dropWhile]
    cases p a
    · simp
    · simp
      omega

theorem pyStrip_length_le (s : PyStr) : (pyStrip s).length ≤ s.length := by
  unfold pyStrip
  have h1 : (s.dropWhile Char.isWhitespace).length ≤ s.length :=
    length_dropWhile_le_pikee _ s
  have h2 : ((s.dropWhile Char.isWhitespace).reverse.dropWhile
      Char.isWhitespace).length ≤ (s.dropWhile Char.isWhitespace).reverse.length :=
    length_dropWhile_le_pikee _ _
  simp only [List.length_reverse] at h2 ⊢
  omega

/-! ## `datetime` and its ISO round-trip

`Chunk.to_dict` / `Atom.to_dict` serialize `created_at` with
`datetime.isoformat()` and `from_dict` restores it with
`datetime.fromisoformat()`, which Python documents as the inverse operation
of `isoformat()`.  A `datetime` is embedded by its components; `isoformat`
produces `YYYY-MM-DDTHH:MM:SS` plus `.ffffff` exactly when the microsecond
field is non-zero, and `fromisoformat` parses exactly that shape (any single
character is accepted as the date/time separator). -/

/-- Embedded `datetime.datetime`: the components that `isoformat` prints. -/
structure PyDateTime where
  year : Nat
  month : Nat
  day : Nat
  hour : Nat
  minute : Nat
  second : Nat
  microsecond : Nat
  deriving DecidableEq, Repr

/-- A valid `datetime` has components inside the ranges that zero-padded
printing relies on (Python enforces stricter ranges at construction). -/
def PyDateTime.valid (dt : PyDateTime) : Prop :=
  dt.year < 10000 ∧ dt.month < 100 ∧ dt.day < 100 ∧ dt.hour < 100 ∧
    dt.minute < 100 ∧ dt.second < 100 ∧ dt.microsecond < 1000000

instance (dt : PyDateTime) : Decidable dt.valid := by
  unfold PyDateTime.valid; infer_instance

/-- Two-digit zero-padded decimal (`%02d` for values below 100). -/
def pad2 (n : Nat) : PyStr :=
  [Char.ofNat (48 + n / 10), Char.ofNat (48 + n % 10)]

/-- Four-digit zero-padded decimal, as two 2-digit groups. -/
def pad4 (n : Nat) : PyStr := pad2 (n / 100) ++ pad2 (n % 100)

/-- Six-digit zero-padded decimal, as three 2-digit groups. -/
def pad6 (n : Nat) : PyStr :=
  pad2 (n / 10000) ++ pad2 (n / 100 % 100) ++ pad2 (n % 100)

/-- `datetime.isoformat()` with the default `"T"` separator. -/
def PyDateTime.isoformat (dt : PyDateTime) : PyStr :=
  pad4 dt.year ++ '-' :: pad2 dt.month ++ '-' :: pad2 dt.day ++
    'T' :: pad2 dt.hour ++ ':' :: pad2 dt.minute ++ ':' :: pad2 dt.second ++
    (if dt.microsecond = 0 then [] else '.' :: pad6 dt.microsecond)

/-- Value of a 2-character digit group, `none` unless both are digits. -/
def parse2 : PyStr → Option Nat
  | [a, b] =>
    if a.isDigit ∧ b.isDigit then some ((a.toNat - 48) * 10 + (b.toNat - 48))
    else none
  | _ => none

/-- `datetime.fromisoformat` (documented as the inverse of `isoformat`):
accepts `YYYY-MM-DD?HH:MM:SS` with an arbitrary separator character and an
optional `.ffffff` microsecond suffix. -/
def pyFromIsoformat (s : PyStr) : Option PyDateTime :=
  match s with
  | [y1, y2, y3, y4, '-', m1, m2, '-', d1, d2, _,
     h1, h2, ':', n1, n2, ':', s1, s2] =>
    match parse2 [y1, y2], parse2 [y3, y4], parse2 [m1, m2], parse2 [d1, d2],
        parse2 [h1, h2], parse2 [n1, n2], parse2 [s1, s2] with
    | some yh, some yl, some mo, some d, some h, some mi, some se =>
      some ⟨yh * 100 + yl, mo, d, h, mi, se, 0⟩
    | _, _, _, _, _, _, _ => none
  | [y1, y2, y3, y4, '-', m1, m2, '-', d1, d2, _,
     h1, h2, ':', n1, n2, ':', s1, s2, '.', u1, u2, u3, u4, u5, u6] =>
    match parse2 [y1, y2], parse2 [y3, y4], parse2 [m1, m2], parse2 [d1, d2],
        parse2 [h1, h2], parse2 [n1, n2], parse2 [s1, s2],
        parse2 [u1, u2], parse2 [u3, u4], parse2 [u5, u6] with
    | some yh, some yl, some mo, some d, some h, some mi, some se,
        some uh, some um, some ul =>
      some ⟨yh * 100 + yl, mo, d, h, mi, se, (uh * 100 + um) * 100 + ul⟩
    | _, _, _, _, _, _, _, _, _, _ => none
  | _ => none

theorem parse2_pad2 : ∀ n : Nat, n < 100 → parse2 (pad2 n) = some n := by
  decide

theorem iso_roundtrip (dt : PyDateTime) (h : dt.valid) :
    pyFromIsoformat dt.isoformat = some dt := by
  obtain ⟨hy, hmo, hd, hh, hmi, hs, hu⟩ := h
  obtain ⟨y, mo, d, hr, mi, se, us⟩ := dt
  simp only [PyDateTime.valid] at *
  have p1 := parse2_pad2 (y / 100) (by omega)
  have p2 := parse2_pad2 (y % 100) (by omega)
  have p3 := parse2_pad2 mo (by omega)
  have p4 := parse2_pad2 d (by omega)
  have p5 := parse2_pad2 hr (by omega)
  have p6 := parse2_pad2 mi (by omega)
  have p7 := parse2_pad2 se (by omega)
  simp only [pad2] at p1 p2 p3 p4 p5 p6 p7
  by_cases hus : us = 0
  · subst hus
    simp only [PyDateTime.isoformat, pad4, pad2, if_true, eq_self_iff_true,
      ite_true, List.cons_append, List.nil_append, List.append_nil]
    simp only [pyFromIsoformat, p1, p2, p3, p4, p5, p6, p7]
    have hy' : y / 100 * 100 + y % 100 = y := by omega
    simp [hy']
  · have p8 := parse2_pad2 (us / 10000) (by omega)
    have p9 := parse2_pad2 (us / 100 % 100) (by omega)
    have p10 := parse2_pad2 (us % 100) (by omega)
    simp only [pad2] at p8 p9 p10
    simp only [PyDateTime.isoformat, pad4, pad6, pad2, if_neg hus,
      List.cons_append, List.nil_append, List.append_nil]
    simp only [pyFromIsoformat, p1, p2, p3, p4, p5, p6, p7, p8, p9, p10]
    have hy' : y / 100 * 100 + y % 100 = y := by omega
    have hu' : (us / 10000 * 100 + us / 100 % 100) * 100 + us % 100 = us := by
      omega
    simp [hy', hu']

/-! ## Data models (`pipeline/models/chunk.py`, `pipeline/models/atom.py`)

Metadata dictionaries (`Dict[str, Any]`) are embedded as association lists
over a small dynamic value type; `to_dict`/`from_dict` pass the metadata
through unchanged.  `uuid4()` id generation and `datetime.now()` are external
nondeterminism: constructors below take the generated values as arguments. -/

/-- A dynamic Python value as stored in `metadata` dictionaries. -/
inductive PyVal where
  | none
  | bool (b : Bool)
  | int (n : Int)
  | str (s : PyStr)
  deriving DecidableEq, Repr

/-- A string-keyed Python dict, embedded as an association list. -/
abbrev PyDict := List (PyStr × PyVal)

/-- `d.get(key, default)`. -/
def pyDictGet (d : PyDict) (key : PyStr) (dflt : PyVal) : PyVal :=
  match d.find? (fun kv => kv.1 = key) with
  | some kv => kv.2
  | Option.none => dflt

/-- `pipeline/models/chunk.py` `Chunk` dataclass (fields in source order). -/
structure Chunk where
  id : PyStr
  document_id : PyStr
  content : PyStr
  summary : PyStr
  index : Int
  char_count : Int
  start_index : Int
  end_index : Int
  metadata : PyDict
  created_at : PyDateTime
  deriving DecidableEq, Repr

/-- `Chunk.__post_init__`: if `char_count` is falsy (`0`) and `content` is
non-empty, set `char_count = len(content)`. -/
def chunkPostInit (c : Chunk) : Chunk :=
  if c.char_count = 0 ∧ c.content ≠ [] then
    { c with char_count := (c.content.length : Int) }
  else c

/-- The dictionary produced by `Chunk.to_dict` (fixed keys, so a record).
`created_at` is serialized with `isoformat()` when the field is set. -/
structure ChunkDict where
  id : PyStr
  document_id : PyStr
  content : PyStr
  summary : PyStr
  index : Int
  char_count : Int
  start_index : Int
  end_index : Int
  metadata : PyDict
  created_at : Option PyStr
  deriving DecidableEq, Repr

/-- `Chunk.to_dict` (a constructed `datetime` is always truthy, so
`created_at` is always serialized). -/
def Chunk.to_dict (c : Chunk) : ChunkDict :=
  { id := c.id, document_id := c.document_id, content := c.content,
    summary := c.summary, index := c.index, char_count := c.char_count,
    start_index := c.start_index, end_index := c.end_index,
    metadata := c.metadata,
    created_at := some c.created_at.isoformat }

/-- `Chunk.from_dict`: parse `created_at` from ISO format when it is a
string (an unparsable or absent timestamp is a failure, `ValueError` in
Python), then run the dataclass constructor including `__post_init__`. -/
def Chunk.from_dict (d : ChunkDict) : Option Chunk :=
  match d.created_at with
  | Option.none => Option.none
  | some s =>
    match pyFromIsoformat s with
    | Option.none => Option.none
    | some dt =>
      some (chunkPostInit
        { id := d.id, document_id := d.document_id, content := d.content,
          summary := d.summary, index := d.index, char_count := d.char_count,
          start_index := d.start_index, end_index := d.end_index,
          metadata := d.metadata, created_at := dt })

/-- `pipeline/models/atom.py` `Atom` dataclass. -/
structure Atom where
  id : PyStr
  chunk_id : PyStr
  question : PyStr
  answer : PyStr
  metadata : PyDict
  created_at : PyDateTime
  deriving DecidableEq, Repr

/-- The dictionary produced by `Atom.to_dict`. -/
structure AtomDict where
  id : PyStr
  chunk_id : PyStr
  question : PyStr
  answer : PyStr
  metadata : PyDict
  created_at : Option PyStr
  deriving DecidableEq, Repr

/-- `Atom.to_dict`. -/
def Atom.to_dict (a : Atom) : AtomDict :=
  { id := a.id, chunk_id := a.chunk_id, question := a.question,
    answer := a.answer, metadata := a.metadata,
    created_at := some a.created_at.isoformat }

/-- `Atom.from_dict` (no `__post_init__` on `Atom`). -/
def Atom.from_dict (d : AtomDict) : Option Atom :=
  match d.created_at with
  | Option.none => Option.none
  | some s =>
    match pyFromIsoformat s with
    | Option.none => Option.none
    | some dt =>
      some { id := d.id, chunk_id := d.chunk_id, question := d.question,
             answer := d.answer, metadata := d.metadata, created_at := dt }

/-! ## Fixed-rule splitter
(`langchain_text_splitters.RecursiveCharacterTextSplitter` as configured by
`chunker.py`: `keep_separator=False`, `add_start_index=True`,
`strip_whitespace=True`, literal separators). -/

/-- `TextSplitter.__init__`'s parameter check: raises `ValueError` iff the
overlap is strictly larger than the chunk size. -/
def splitterInitCheck (chunkSize chunkOverlap : Nat) : Except Unit Unit :=
  if chunkOverlap > chunkSize then Except.error () else Except.ok ()

/-- Separator selection at the top of `_split_text`: start from the last
separator as default, take the first empty separator or the first one that
occurs in the text (returning the remaining lower-priority separators). -/
def selectSep : List PyStr → PyStr → PyStr → PyStr × List PyStr
  | [], dflt, _ => (dflt, [])
  | s :: rest, dflt, text =>
    if s = [] then ([], [])
    else if containsSub text s then (s, rest)
    else selectSep rest dflt text

/-- `_split_text_with_regex` with `keep_separator=False`: split on the
literal separator (empty separator means the list of characters), dropping
empty pieces. -/
def splitWithSep (text sep : PyStr) : List PyStr :=
  let pieces := if sep = [] then text.map (fun c => [c]) else splitOnSub sep text
  pieces.filter (fun s => s ≠ [])

/-- `_join_docs` with `strip_whitespace=True`: join with the separator,
strip, and drop the result when it is empty. -/
def joinDocs (sep : PyStr) (docs : List PyStr) : Option PyStr :=
  let t := pyStrip (joinWith sep docs)
  if t = [] then Option.none else some t

/-- The inner `while` popping loop of `_merge_splits`: drop leading buffered
pieces while the running total exceeds the overlap, or while adding the next
piece would exceed the chunk size and the buffer is non-trivial.  (With an
empty buffer the running total is `0`, so the loop condition is false and
Python never indexes into the empty list.) -/
def mergePop (chunkSize chunkOverlap sepLen dLen : Nat) :
    List PyStr → Nat → List PyStr × Nat
  | [], total => ([], total)
  | c :: cs, total =>
    if total > chunkOverlap ∨ (total + dLen + sepLen > chunkSize ∧ total > 0) then
      mergePop chunkSize chunkOverlap sepLen dLen cs
        (total - (c.length + if cs ≠ [] then sepLen else 0))
    else (c :: cs, total)

/-- One `for` step of `_merge_splits` over state
(accumulated docs, buffered pieces, running total). -/
def mergeStep (chunkSize chunkOverlap : Nat) (sep : PyStr)
    (st : List PyStr × List PyStr × Nat) (d : PyStr) :
    List PyStr × List PyStr × Nat :=
  let (docs, current, total) := st
  let dLen := d.length
  let (docs1, current1, total1) :=
    if total + dLen + (if current ≠ [] then sep.length else 0) > chunkSize then
      if current ≠ [] then
        let docs' := docs ++ (joinDocs sep current).toList
        let (current', total') :=
          mergePop chunkSize chunkOverlap sep.length dLen current total
        (docs', current', total')
      else (docs, current, total)
    else (docs, current, total)
  let current2 := current1 ++ [d]
  (docs1, current2, total1 + dLen + if current1 ≠ [] then sep.length else 0)

/-- `_merge_splits`. -/
def mergeSplits (chunkSize chunkOverlap : Nat) (sep : PyStr)
    (splits : List PyStr) : List PyStr :=
  let (docs, current, _) :=
    splits.foldl (mergeStep chunkSize chunkOverlap sep) ([], [], 0)
  docs ++ (joinDocs sep current).toList

/-- The `for s in splits` loop body of `_split_text`: buffer pieces smaller
than the chunk size; a too-large piece flushes the buffer through
`_merge_splits` and is recursed on with the remaining separators (or emitted
as-is when none remain). -/
def splitLoop (chunkSize chunkOverlap : Nat) (sep : PyStr)
    (handleBig : PyStr → List PyStr) :
    List PyStr → List PyStr → List PyStr
  | [], goods => mergeSplits chunkSize chunkOverlap sep goods
  | s :: rest, goods =>
    if s.length < chunkSize then
      splitLoop chunkSize chunkOverlap sep handleBig rest (goods ++ [s])
    else
      (if goods ≠ [] then mergeSplits chunkSize chunkOverlap sep goods else [])
        ++ handleBig s
        ++ splitLoop chunkSize chunkOverlap sep handleBig rest []

/-- `_split_text`, recursing on the separator list; `fuel` dominates the
separator-list length (each recursive call uses a strictly shorter list, so
`separators.length + 1` fuel is always enough). -/
def splitTextF (chunkSize chunkOverlap : Nat) :
    Nat → List PyStr → PyStr → List PyStr
  | 0, _, text => [text]
  | fuel + 1, seps, text =>
    let dflt := seps.getLastD []
    let (sep, newSeps) := selectSep seps dflt text
    let splits := splitWithSep text sep
    splitLoop chunkSize chunkOverlap sep
      (fun s =>
        if newSeps = [] then [s]
        else splitTextF chunkSize chunkOverlap fuel newSeps s)
      splits []

/-- `RecursiveCharacterTextSplitter.split_text`. -/
def splitText (chunkSize chunkOverlap : Nat) (seps : List PyStr)
    (text : PyStr) : List PyStr :=
  splitTextF chunkSize chunkOverlap (seps.length + 1) seps text

/-- `TextSplitter.create_documents` with `add_start_index=True`: pair every
produced piece with `text.find(piece, max(0, index + previous_len - overlap))`. -/
def createDocs (chunkSize chunkOverlap : Nat) (seps : List PyStr)
    (text : PyStr) : List (PyStr × Int) :=
  let step := fun (st : List (PyStr × Int) × Int × Int) (piece : PyStr) =>
    let (acc, index, prevLen) := st
    let offset : Int := index + prevLen - (chunkOverlap : Int)
    let found : Int := pyFindFrom text piece (max 0 offset).toNat
    (acc ++ [(piece, found)], found, (piece.length : Int))
  (splitText chunkSize chunkOverlap seps text |>.foldl step ([], 0, 0)).1

/-! ## Document chunker (`pipeline/services/chunker.py`) -/

/-- The `Document` fields the chunkers read. -/
structure Document where
  id : PyStr
  title : PyStr
  content : PyStr
  file_path : PyStr
  metadata : PyDict
  deriving DecidableEq, Repr

/-- One outcome of a `generate_content` call: a raised transport error or a
response string. -/
abbrev GenOutcome := Except Unit PyStr

instance : DecidableEq GenOutcome := fun a b =>
  match a, b with
  | Except.error x, Except.error y =>
    if h : x = y then isTrue (by rw [h]) else
      isFalse (fun hc => h (by injection hc))
  | Except.ok x, Except.ok y =>
    if h : x = y then isTrue (by rw [h]) else
      isFalse (fun hc => h (by injection hc))
  | Except.error _, Except.ok _ => isFalse (fun hc => by injection hc)
  | Except.ok _, Except.error _ => isFalse (fun hc => by injection hc)

/-- The generation capability as consumed sequentially: a stream of call
outcomes; an exhausted stream behaves as a raised error. -/
abbrev Oracle := List GenOutcome

/-- Pop the next call outcome off the oracle. -/
def takeOracle (o : Oracle) : GenOutcome × Oracle :=
  match o with
  | [] => (Except.error (), [])
  | x :: rest => (x, rest)

/-- `re.search(r"<endline>(\d+)</endline>", response)`: scan left to right;
at a position starting with the open tag, the greedy digit run must be
non-empty and be followed immediately by the close tag. -/
def searchEndline : PyStr → Option Nat
  | [] => Option.none
  | c :: cs =>
    let s := c :: cs
    if ("<endline>".toList).isPrefixOf s then
      let after := s.drop 9
      let digits := after.takeWhile Char.isDigit
      if digits ≠ [] ∧ ("</endline>".toList).isPrefixOf (after.drop digits.length)
      then some (digitsToNat digits)
      else searchEndline cs
    else searchEndline cs

/-- `re.findall(r"<summary>(.*?)</summary>", response, re.DOTALL)`: each
match runs from an open tag to the earliest following close tag; scanning
resumes after the close tag.  Fuel-driven (every step consumes at least one
character, so `length + 1` fuel always suffices). -/
def findSummariesF : Nat → PyStr → List PyStr
  | 0, _ => []
  | _ + 1, [] => []
  | fuel + 1, c :: cs =>
    let s := c :: cs
    if ("<summary>".toList).isPrefixOf s then
      match findSubIdx (s.drop 9) ("</summary>".toList) with
      | some i =>
        (s.drop 9).take i :: findSummariesF fuel (s.drop (9 + i + 10))
      | Option.none => findSummariesF fuel cs
    else findSummariesF fuel cs

/-- All `<summary>...</summary>` matches of a response. -/
def findSummaries (s : PyStr) : List PyStr :=
  findSummariesF (s.length + 1) s

/-- `DocumentChunker._parse_resplit_response`: extract the end line number
and two summaries, clamp the line number to the line count of the original
text, and cut the original text after that many lines.  Returns
(part 1, summary 1, summary 2, cut position); `none` models the raised
`ValueError` when a required field is missing. -/
def parseResplitResponse (response originalText : PyStr) :
    Option (PyStr × PyStr × PyStr × Nat) :=
  match searchEndline response with
  | Option.none => Option.none
  | some n =>
    match findSummaries response with
    | s1 :: s2 :: _ =>
      let lines := originalText.splitOn '\n'
      let endLine := if n > lines.length then lines.length else n
      let firstPart := joinWith ['\n'] (lines.take endLine)
      some (firstPart, pyStrip s1, pyStrip s2, firstPart.length)
    | _ => Option.none

/-- `DocumentChunker._resplit_and_generate_summary` for a call whose outcome
is `out`: on a raised generation error or an unparsable response, fall back
to the first candidate segment with the previous summary and its length;
otherwise return the parse result. -/
def resplitAndGenerateSummary (out : GenOutcome) (text c0 c1 chunkSummary :
    PyStr) : PyStr × PyStr × PyStr × Nat :=
  match out with
  | Except.error _ => (c0, chunkSummary, chunkSummary, c0.length)
  | Except.ok resp =>
    match parseResplitResponse resp (text.take (c0.length + c1.length)) with
    | Option.none => (c0, chunkSummary, chunkSummary, c0.length)
    | some r => r

/-- Metadata attached to chunks emitted by the LLM-refined engine. -/
def llmChunkMeta (doc : Document) : PyDict :=
  [("source".toList, PyVal.str doc.file_path),
   ("title".toList, PyVal.str doc.title),
   ("has_llm_summary".toList, PyVal.bool true)]

/-- Loop state of `DocumentChunker._chunk_with_llm` (locals of the `while`
loop, plus the oracle position). -/
structure LoopState where
  text : PyStr
  textChunks : List PyStr
  chunkIndex : Nat
  position : Nat
  chunkSummary : PyStr
  emitted : List Chunk
  oracle : Oracle
  deriving Repr

/-- The zero timestamp used for `datetime.now()` results (the generated
value is irrelevant to every property below). -/
def dtZero : PyDateTime := ⟨2000, 1, 1, 0, 0, 0, 0⟩

/-- A chunk as constructed inside `_chunk_with_llm` (both the refined and
the terminal branch build exactly this value). -/
def emitChunk (doc : Document) (content summary : PyStr) (idx pos : Nat) :
    Chunk :=
  { id := [], document_id := doc.id, content := content, summary := summary,
    index := (idx : Int), char_count := (content.length : Int),
    start_index := (pos : Int),
    end_index := (pos : Int) + (content.length : Int),
    metadata := llmChunkMeta doc, created_at := dtZero }

/-- `DocumentChunker._generate_last_chunk_summary` at a given call outcome:
the stripped response, or the previous summary when the call raised. -/
def lastChunkSummary (out : GenOutcome) (prior : PyStr) : PyStr :=
  match out with
  | Except.error _ => prior
  | Except.ok resp => pyStrip resp

/-- One iteration of the `while text_chunks:` loop of `_chunk_with_llm`:
either the loop continues with a new state, or it stops with the final chunk
list (empty candidate list, or terminal single-candidate branch). -/
def chunkIter (split : PyStr → List PyStr) (doc : Document)
    (s : LoopState) : LoopState ⊕ List Chunk :=
  match s.textChunks with
  | [] => Sum.inr s.emitted
  | [t0] =>
    let (out, _) := takeOracle s.oracle
    Sum.inr (s.emitted ++
      [emitChunk doc t0 (lastChunkSummary out s.chunkSummary)
        s.chunkIndex s.position])
  | c0 :: c1 :: rest =>
    let (out, oracle') := takeOracle s.oracle
    let (newChunk, newSummary, nextSummary, droppedLen) :=
      resplitAndGenerateSummary out s.text c0 c1 s.chunkSummary
    if newChunk = [] ∨ pyStrip newChunk = [] then
      Sum.inl { s with chunkSummary := nextSummary,
                       textChunks := (c0 ++ c1) :: rest,
                       oracle := oracle' }
    else
      let newText := pyStrip (s.text.drop droppedLen)
      Sum.inl { text := newText,
                textChunks := split newText,
                chunkIndex := s.chunkIndex + 1,
                position := s.position + droppedLen,
                chunkSummary := nextSummary,
                emitted := s.emitted ++
                  [emitChunk doc newChunk newSummary s.chunkIndex s.position],
                oracle := oracle' }

/-- The `while` loop of `_chunk_with_llm`, fuel-driven (`none` means the
fuel ran out before the loop finished). -/
def chunkLoop (split : PyStr → List PyStr) (doc : Document) :
    Nat → LoopState → Option (List Chunk)
  | 0, _ => Option.none
  | fuel + 1, s =>
    match chunkIter split doc s with
    | Sum.inr chunks => some chunks
    | Sum.inl s' => chunkLoop split doc fuel s'

/-- `DocumentChunker._generate_first_chunk_summary`: summary of the leading
text up to the end of the first candidate segment; empty when splitting
yields nothing (no generation call) or the call raises.  Returns the summary
and the remaining oracle. -/
def generateFirstChunkSummary (split : PyStr → List PyStr) (text : PyStr)
    (oracle : Oracle) : PyStr × Oracle :=
  match split text with
  | [] => ([], oracle)
  | _ :: _ =>
    let (out, oracle') := takeOracle oracle
    match out with
    | Except.error _ => ([], oracle')
    | Except.ok resp => (pyStrip resp, oracle')

/-- `DocumentChunker._chunk_with_llm`, as called on a document whose content
passed the emptiness check in `chunk_document`. -/
def chunkWithLLM (split : PyStr → List PyStr) (doc : Document)
    (oracle : Oracle) (fuel : Nat) : Option (List Chunk) :=
  let text := pyStrip doc.content
  let g := generateFirstChunkSummary split text oracle
  chunkLoop split doc fuel
    { text := text, textChunks := split text, chunkIndex := 0, position := 0,
      chunkSummary := g.1, emitted := [], oracle := g.2 }

/-- The `for idx, lc_doc in enumerate(...)` loop of `_chunk_basic` /
`SimpleChunker.chunk_document`, with the running index explicit. -/
def chunkBasicGo (doc : Document) : Nat → List (PyStr × Int) → List Chunk
  | _, [] => []
  | idx, p :: rest =>
    { id := [], document_id := doc.id, content := p.1,
      summary := [], index := (idx : Int),
      char_count := (p.1.length : Int), start_index := p.2,
      end_index := p.2 + (p.1.length : Int),
      metadata := [("source".toList, PyVal.str doc.file_path),
                   ("title".toList, PyVal.str doc.title),
                   ("document_id".toList, PyVal.str doc.id)],
      created_at := dtZero } :: chunkBasicGo doc (idx + 1) rest

/-- `DocumentChunker._chunk_basic` / `SimpleChunker.chunk_document` body,
abstracted over the `(piece, start_index)` pairs the underlying splitter's
`create_documents` reports: one `Chunk` per pair, indexed in order. -/
def chunkBasicAbs (doc : Document) (pieces : List (PyStr × Int)) :
    List Chunk :=
  chunkBasicGo doc 0 pieces

/-- `SimpleChunker.chunk_document`: empty or whitespace-only content yields
no chunks; otherwise split the stripped text with offsets and build chunks. -/
def simpleChunkDocument (chunkSize chunkOverlap : Nat) (seps : List PyStr)
    (doc : Document) : List Chunk :=
  if doc.content = [] ∨ pyStrip doc.content = [] then []
  else
    let text := pyStrip doc.content
    chunkBasicAbs doc (createDocs chunkSize chunkOverlap seps text)

/-- `SimpleChunker.__init__`: the only raising check is the splitter's
overlap/size validation. -/
def simpleChunkerInit (chunkSize chunkOverlap : Nat) : Except Unit Unit :=
  splitterInitCheck chunkSize chunkOverlap

/-- Construction errors of `DocumentChunker.__init__`. -/
inductive ChunkerInitError where
  | missingLLMClient
  | overlapTooLarge
  deriving DecidableEq, Repr

/-- `DocumentChunker.__init__`: first the enable-LLM/client check
(line 77), then the base splitter construction with its overlap check
(line 81). -/
def documentChunkerInit (chunkSize chunkOverlap : Nat) (enableLLM : Bool)
    (hasClient : Bool) : Except ChunkerInitError Unit :=
  if enableLLM ∧ ¬ hasClient then Except.error ChunkerInitError.missingLLMClient
  else
    match splitterInitCheck chunkSize chunkOverlap with
    | Except.error _ => Except.error ChunkerInitError.overlapTooLarge
    | Except.ok _ => Except.ok ()

/-! ## Atom extractor (`pipeline/services/tagger.py`)

`AtomExtractor._parse_response` uses `json.loads` and a non-greedy
`re.search(r"\[.*?\]", ..., re.DOTALL)`.  `json.loads` is embedded below for
the JSON fragment the responses use (null, booleans, integer numbers,
strings with the standard escapes, arrays, objects); non-integer numbers are
outside the model. -/

/-- Embedded JSON value. -/
inductive PyJson where
  | null
  | bool (b : Bool)
  | int (n : Int)
  | str (s : PyStr)
  | arr (l : List PyJson)
  | obj (l : List (PyStr × PyJson))

/-- JSON whitespace. -/
def isJsonWs (c : Char) : Bool := c = ' ' ∨ c = '\t' ∨ c = '\n' ∨ c = '\r'

/-- Hex digit value. -/
def hexVal (c : Char) : Option Nat :=
  if '0' ≤ c ∧ c ≤ '9' then some (c.toNat - 48)
  else if 'a' ≤ c ∧ c ≤ 'f' then some (c.toNat - 87)
  else if 'A' ≤ c ∧ c ≤ 'F' then some (c.toNat - 55)
  else Option.none

/-- Parse the body of a JSON string after the opening quote (strict mode:
raw control characters are rejected; standard escapes and `\uXXXX`). -/
def parseJsonStr : Nat → PyStr → Option (PyStr × PyStr)
  | 0, _ => Option.none
  | _ + 1, [] => Option.none
  | fuel + 1, c :: cs =>
    if c = '"' then some ([], cs)
    else if c = '\\' then
      match cs with
      | [] => Option.none
      | e :: cs' =>
        let esc : Option (Char × PyStr) :=
          if e = '"' then some ('"', cs')
          else if e = '\\' then some ('\\', cs')
          else if e = '/' then some ('/', cs')
          else if e = 'b' then some (Char.ofNat 8, cs')
          else if e = 'f' then some (Char.ofNat 12, cs')
          else if e = 'n' then some ('\n', cs')
          else if e = 'r' then some ('\r', cs')
          else if e = 't' then some ('\t', cs')
          else if e = 'u' then
            match cs' with
            | h1 :: h2 :: h3 :: h4 :: cs'' =>
              match hexVal h1, hexVal h2, hexVal h3, hexVal h4 with
              | some a, some b, some c', some d =>
                some (Char.ofNat (((a * 16 + b) * 16 + c') * 16 + d), cs'')
              | _, _, _, _ => Option.none
            | _ => Option.none
          else Option.none
        match esc with
        | Option.none => Option.none
        | some (ch, rest) =>
          match parseJsonStr fuel rest with
          | some (tail, rem) => some (ch :: tail, rem)
          | Option.none => Option.none
    else if c.toNat < 32 then Option.none
    else
      match parseJsonStr fuel cs with
      | some (tail, rem) => some (c :: tail, rem)
      | Option.none => Option.none

mutual

/-- Parse one JSON value (after skipping leading whitespace). -/
def parseJsonVal : Nat → PyStr → Option (PyJson × PyStr)
  | 0, _ => Option.none
  | fuel + 1, s =>
    match s.dropWhile isJsonWs with
    | [] => Option.none
    | c :: cs =>
      if c = '"' then
        match parseJsonStr (fuel + 1) cs with
        | some (str, rem) => some (PyJson.str str, rem)
        | Option.none => Option.none
      else if c = '[' then
        match (cs.dropWhile isJsonWs) with
        | ']' :: rem => some (PyJson.arr [], rem)
        | _ =>
          match parseJsonArrItems fuel cs with
          | some (items, rem) => some (PyJson.arr items, rem)
          | Option.none => Option.none
      else if c = Char.ofNat 123 then
        match (cs.dropWhile isJsonWs) with
        | d :: rem =>
          if d = Char.ofNat 125 then some (PyJson.obj [], rem)
          else
            match parseJsonObjItems fuel cs with
            | some (items, rem') => some (PyJson.obj items, rem')
            | Option.none => Option.none
        | [] => Option.none
      else if ("true".toList).isPrefixOf (c :: cs) then
        some (PyJson.bool true, (c :: cs).drop 4)
      else if ("false".toList).isPrefixOf (c :: cs) then
        some (PyJson.bool false, (c :: cs).drop 5)
      else if ("null".toList).isPrefixOf (c :: cs) then
        some (PyJson.null, (c :: cs).drop 4)
      else
        let (neg, ds) := if c = '-' then (true, cs) else (false, c :: cs)
        let digits := ds.takeWhile Char.isDigit
        let rest := ds.drop digits.length
        if digits = [] then Option.none
        else
          match rest with
          | r :: _ =>
            if r = '.' ∨ r = 'e' ∨ r = 'E' then Option.none
            else some (PyJson.int (if neg then -(digitsToNat digits : Int)
                                   else (digitsToNat digits : Int)), rest)
          | [] => some (PyJson.int (if neg then -(digitsToNat digits : Int)
                                    else (digitsToNat digits : Int)), rest)

/-- Parse the items of a non-empty JSON array (input is positioned right
after `[`). -/
def parseJsonArrItems : Nat → PyStr → Option (List PyJson × PyStr)
  | 0, _ => Option.none
  | fuel + 1, s =>
    match parseJsonVal fuel s with
    | Option.none => Option.none
    | some (v, rem) =>
      match rem.dropWhile isJsonWs with
      | ']' :: rem' => some ([v], rem')
      | ',' :: rem' =>
        match parseJsonArrItems fuel rem' with
        | some (vs, rem'') => some (v :: vs, rem'')
        | Option.none => Option.none
      | _ => Option.none

/-- Parse the members of a non-empty JSON object (input is positioned right
after the opening brace). -/
def parseJsonObjItems : Nat → PyStr → Option (List (PyStr × PyJson) × PyStr)
  | 0, _ => Option.none
  | fuel + 1, s =>
    match s.dropWhile isJsonWs with
    | '"' :: cs =>
      match parseJsonStr (fuel + 1) cs with
      | Option.none => Option.none
      | some (key, rem) =>
        match rem.dropWhile isJsonWs with
        | ':' :: rem' =>
          match parseJsonVal fuel rem' with
          | Option.none => Option.none
          | some (v, rem'') =>
            match rem''.dropWhile isJsonWs with
            | c :: rem''' =>
              if c = Char.ofNat 125 then some ([(key, v)], rem''')
              else if c = ',' then
                match parseJsonObjItems fuel rem''' with
                | some (kvs, rem4) => some ((key, v) :: kvs, rem4)
                | Option.none => Option.none
              else Option.none
            | [] => Option.none
        | _ => Option.none
    | _ => Option.none

end

/-- `json.loads`: parse one value, allow surrounding whitespace, require the
whole input to be consumed. -/
def jsonLoads (s : PyStr) : Option PyJson :=
  match parseJsonVal (s.length + 2) s with
  | some (v, rem) => if rem.dropWhile isJsonWs = [] then some v else Option.none
  | Option.none => Option.none

/-- Python truthiness of a JSON-decoded value (`if q`). -/
def pyTruthy : PyJson → Bool
  | PyJson.null => false
  | PyJson.bool b => b
  | PyJson.int n => n != 0
  | PyJson.str s => !s.isEmpty
  | PyJson.arr l => !l.isEmpty
  | PyJson.obj l => !l.isEmpty

/-- Decimal representation of an integer. -/
def intRepr (n : Int) : PyStr :=
  if n < 0 then '-' :: (Nat.toDigits 10 n.natAbs) else Nat.toDigits 10 n.natAbs

mutual

/-- Python `str()` of a JSON-decoded value. -/
def pyStrOf : PyJson → PyStr
  | PyJson.null => "None".toList
  | PyJson.bool true => "True".toList
  | PyJson.bool false => "False".toList
  | PyJson.int n => intRepr n
  | PyJson.str s => s
  | PyJson.arr l => '[' :: joinWith (", ".toList) (reprList l) ++ [']']
  | PyJson.obj l =>
    Char.ofNat 123 :: joinWith (", ".toList) (reprPairs l) ++ [Char.ofNat 125]

/-- Python `repr()` of list elements (string quoting simplified to single
quotes; no claim below depends on nested-container text). -/
def reprList : List PyJson → List PyStr
  | [] => []
  | v :: vs =>
    (match v with
     | PyJson.str s => '\'' :: s ++ ['\'']
     | other => pyStrOf other) :: reprList vs

/-- Python `repr()` of dict members. -/
def reprPairs : List (PyStr × PyJson) → List PyStr
  | [] => []
  | (k, v) :: kvs =>
    ('\'' :: k ++ ['\''] ++ ": ".toList ++
      (match v with
       | PyJson.str s => '\'' :: s ++ ['\'']
       | other => pyStrOf other)) :: reprPairs kvs

end

/-- The substring matched by `re.search(r"\[.*?\]", text, re.DOTALL)`: from
the first `[` to the earliest `]` after it (the lazy quantifier), or `none`
when no such pair exists. -/
def firstBracketMatch (s : PyStr) : Option PyStr :=
  match findSubIdx s ['['] with
  | Option.none => Option.none
  | some i =>
    let after := s.drop (i + 1)
    match findSubIdx after [']'] with
    | Option.none => Option.none
    | some j => some ('[' :: after.take j ++ [']'])

/-- Typed result of `AtomExtractor._parse_response` failures. -/
inductive TagParseError where
  | notAList
  | cannotParse
  deriving DecidableEq, Repr

/-- `AtomExtractor._parse_response`: direct `json.loads` on the stripped
response first (a non-list value raises); on a JSON decode error, parse the
first non-greedy bracketed substring; if that also fails, raise. -/
def tagParseResponse (response : PyStr) :
    Except TagParseError (List PyStr) :=
  match jsonLoads (pyStrip response) with
  | some (PyJson.arr qs) =>
    Except.ok ((qs.filter pyTruthy).map pyStrOf)
  | some _ => Except.error TagParseError.notAList
  | Option.none =>
    match firstBracketMatch response with
    | some sub =>
      match jsonLoads sub with
      | some (PyJson.arr qs) =>
        Except.ok ((qs.filter pyTruthy).map pyStrOf)
      | _ => Except.error TagParseError.cannotParse
    | Option.none => Except.error TagParseError.cannotParse

/-- `AtomExtractionPrompts.build_atom_extraction` (the exact prompt text
only feeds the abstract generation oracle; it is embedded as the injection
of its three inputs). -/
def buildAtomExtraction (content chunkId title : PyStr) : PyStr :=
  "ATOM PROMPT title=".toList ++ title ++ " chunk=".toList ++ chunkId ++
    " content=".toList ++ content

/-- Rendering of a metadata value inside an f-string (`str()`). -/
def pyValStr : PyVal → PyStr
  | PyVal.none => "None".toList
  | PyVal.bool true => "True".toList
  | PyVal.bool false => "False".toList
  | PyVal.int n => intRepr n
  | PyVal.str s => s

/-- The extraction prompt built for one chunk
(`build_atom_extraction(content=chunk.content, chunk_id=chunk.id,
title=chunk.metadata.get("title", ""))`). -/
def atomPrompt (chunk : Chunk) : PyStr :=
  buildAtomExtraction chunk.content chunk.id
    (pyValStr (pyDictGet chunk.metadata ("title".toList) (PyVal.str [])))

/-- The successful-generation tail of `AtomExtractor.extract_atoms`: parse
the response, truncate to the cap, keep non-blank questions, build atoms. -/
def extractAtomsFromResponse (maxAtomsPerChunk : Nat) (chunk : Chunk)
    (response : PyStr) : List Atom × Nat :=
  match tagParseResponse response with
  | Except.error _ => ([], 1)
  | Except.ok questions =>
    let questions := questions.take maxAtomsPerChunk
    let atoms := questions.filterMap (fun q =>
      if pyStrip q ≠ [] then
        some { id := ([] : PyStr), chunk_id := chunk.id,
               question := pyStrip q, answer := [],
               metadata :=
                 [("source".toList,
                   pyDictGet chunk.metadata ("source".toList)
                     (PyVal.str [])),
                  ("title".toList,
                   pyDictGet chunk.metadata ("title".toList)
                     (PyVal.str [])),
                  ("document_id".toList, PyVal.str chunk.document_id)],
               created_at := dtZero }
      else Option.none)
    (atoms, 1)

/-- `AtomExtractor.extract_atoms` with the generation capability `gen`
(deterministic per prompt).  Returns the atom list and the number of
`generate_content` calls made; every internal exception (generation error or
parse error) is caught and yields the empty list. -/
def extractAtoms (gen : PyStr → GenOutcome) (maxAtomsPerChunk : Nat)
    (chunk : Chunk) : List Atom × Nat :=
  if chunk.content = [] ∨ pyStrip chunk.content = [] then ([], 0)
  else
    match gen (atomPrompt chunk) with
    | Except.error _ => ([], 1)
    | Except.ok response => extractAtomsFromResponse maxAtomsPerChunk chunk response

/-- `AtomExtractor._single_thread_extract`: sequential in input order
(`extract_atoms` never raises, so the `except` is dead). -/
def singleThreadExtract (gen : PyStr → GenOutcome) (maxAtomsPerChunk : Nat)
    (chunks : List Chunk) : List Atom :=
  (chunks.map (fun c => (extractAtoms gen maxAtomsPerChunk c).1)).flatten

/-- `AtomExtractor._multi_thread_extract`: results are collected with
`as_completed`, i.e. in an arbitrary completion order; the scheduling
nondeterminism is the `completed` permutation of the input chunks. -/
def multiThreadExtract (gen : PyStr → GenOutcome) (maxAtomsPerChunk : Nat)
    (completed : List Chunk) : List Atom :=
  (completed.map (fun c => (extractAtoms gen maxAtomsPerChunk c).1)).flatten

/-- `AtomExtractor.extract_atoms_batch` for a positive parallelism setting
(`num_parallel == 1` is the sequential path; larger values use the thread
pool, whose completion order is the `completed` parameter). -/
def extractAtomsBatch (gen : PyStr → GenOutcome) (maxAtomsPerChunk : Nat)
    (numParallel : Nat) (chunks completed : List Chunk) : List Atom :=
  if chunks = [] then []
  else if numParallel = 1 then singleThreadExtract gen maxAtomsPerChunk chunks
  else multiThreadExtract gen maxAtomsPerChunk completed

/-! ## Helper lemmas about the refinement loop -/

theorem parseResplitResponse_cut {resp t : PyStr}
    {r : PyStr × PyStr × PyStr × Nat}
    (h : parseResplitResponse resp t = some r) : r.2.2.2 = r.1.length := by
  unfold parseResplitResponse at h
  split at h
  · exact absurd h (by simp)
  · split at h
    · rw [Option.some.injEq] at h
      subst h
      rfl
    · exact absurd h (by simp)

theorem resplit_dropped_eq_length {out : GenOutcome}
    {text c0 c1 summ nc ns nxt : PyStr} {dl : Nat}
    (h : resplitAndGenerateSummary out text c0 c1 summ = (nc, ns, nxt, dl)) :
    dl = nc.length := by
  unfold resplitAndGenerateSummary at h
  split at h
  · rw [Prod.mk.injEq, Prod.mk.injEq, Prod.mk.injEq] at h
    obtain ⟨h1, _, _, h4⟩ := h
    rw [← h1, ← h4]
  · split at h
    · rw [Prod.mk.injEq, Prod.mk.injEq, Prod.mk.injEq] at h
      obtain ⟨h1, _, _, h4⟩ := h
      rw [← h1, ← h4]
    · rename_i r hr
      have := parseResplitResponse_cut hr
      rw [h] at this
      exact this

theorem resplit_fallback {out : GenOutcome} {text c0 c1 summ : PyStr}
    (h : out = Except.error () ∨ ∃ resp, out = Except.ok resp ∧
      parseResplitResponse resp (text.take (c0.length + c1.length)) =
        Option.none) :
    resplitAndGenerateSummary out text c0 c1 summ =
      (c0, summ, summ, c0.length) := by
  rcases h with h | ⟨resp, hout, hparse⟩
  · subst h; rfl
  · subst hout
    show (match parseResplitResponse resp
        (text.take (c0.length + c1.length)) with
      | Option.none => (c0, summ, summ, c0.length)
      | some r => r) = (c0, summ, summ, c0.length)
    rw [hparse]

theorem chunkIter_eq_nil {split : PyStr → List PyStr} {doc : Document}
    {s : LoopState} (h : s.textChunks = []) :
    chunkIter split doc s = Sum.inr s.emitted := by
  obtain ⟨text, tcs, ci, pos, summ, em, orc⟩ := s
  simp only at h
  subst h
  rfl

theorem chunkIter_eq_last {split : PyStr → List PyStr} {doc : Document}
    {s : LoopState} {t0 : PyStr} (h : s.textChunks = [t0]) :
    chunkIter split doc s = Sum.inr (s.emitted ++
      [emitChunk doc t0 (lastChunkSummary (takeOracle s.oracle).1
        s.chunkSummary) s.chunkIndex s.position]) := by
  obtain ⟨text, tcs, ci, pos, summ, em, orc⟩ := s
  simp only at h
  subst h
  simp only [chunkIter]

theorem chunkIter_eq_cons {split : PyStr → List PyStr} {doc : Document}
    {s : LoopState} {c0 c1 : PyStr} {rest : List PyStr} {out : GenOutcome}
    {o' : Oracle} {nc ns nxt : PyStr} {dl : Nat}
    (htc : s.textChunks = c0 :: c1 :: rest)
    (hor : takeOracle s.oracle = (out, o'))
    (hres : resplitAndGenerateSummary out s.text c0 c1 s.chunkSummary =
      (nc, ns, nxt, dl)) :
    chunkIter split doc s =
      (if nc = [] ∨ pyStrip nc = [] then
        Sum.inl { s with chunkSummary := nxt,
                         textChunks := (c0 ++ c1) :: rest, oracle := o' }
      else
        Sum.inl { text := pyStrip (s.text.drop dl),
                  textChunks := split (pyStrip (s.text.drop dl)),
                  chunkIndex := s.chunkIndex + 1,
                  position := s.position + dl,
                  chunkSummary := nxt,
                  emitted := s.emitted ++
                    [emitChunk doc nc ns s.chunkIndex s.position],
                  oracle := o' }) := by
  obtain ⟨text, tcs, ci, pos, summ, em, orc⟩ := s
  simp only at htc hor hres ⊢
  subst htc
  simp only [chunkIter, hor, hres]

theorem chunkLoop_succ (split : PyStr → List PyStr) (doc : Document)
    (fuel : Nat) (s : LoopState) :
    chunkLoop split doc (fuel + 1) s =
      match chunkIter split doc s with
      | Sum.inr cs => some cs
      | Sum.inl s' => chunkLoop split doc fuel s' := rfl

/-! ## Chunk-sequence invariants -/

/-- Per-chunk size/offset invariants of the spec. -/
def chunkFieldsOK (c : Chunk) : Prop :=
  c.char_count = (c.content.length : Int) ∧
    c.end_index - c.start_index = c.char_count

/-- Whole-sequence invariants: indices are exactly `0..N-1` in order, every
chunk satisfies the size/offset equations, and start offsets are
non-decreasing. -/
def chunkSeqOK (cs : List Chunk) : Prop :=
  cs.map (fun c => c.index) =
      (List.range cs.length).map (fun i : Nat => (i : Int))
    ∧ (∀ c ∈ cs, chunkFieldsOK c)
    ∧ List.Sorted (· ≤ ·) (cs.map (fun c => c.start_index))

/-- Loop invariant of `_chunk_with_llm` relating the emitted chunks to the
chunk index counter and cursor position. -/
def loopInv (s : LoopState) : Prop :=
  s.emitted.map (fun c => c.index) =
      (List.range s.chunkIndex).map (fun i : Nat => (i : Int))
    ∧ (∀ c ∈ s.emitted, chunkFieldsOK c)
    ∧ List.Sorted (· ≤ ·) (s.emitted.map (fun c => c.start_index))
    ∧ ∀ c ∈ s.emitted, c.start_index ≤ (s.position : Int)

theorem emitChunk_fieldsOK (doc : Document) (content summary : PyStr)
    (idx pos : Nat) : chunkFieldsOK (emitChunk doc content summary idx pos) := by
  constructor
  · rfl
  · show (pos : Int) + (content.length : Int) - (pos : Int) =
      (content.length : Int)
    omega

theorem seq_append (cs : List Chunk) (n p : Nat) (c : Chunk)
    (h1 : cs.map (fun c => c.index) =
      (List.range n).map (fun i : Nat => (i : Int)))
    (h2 : ∀ x ∈ cs, chunkFieldsOK x)
    (h3 : List.Sorted (· ≤ ·) (cs.map (fun c => c.start_index)))
    (h4 : ∀ x ∈ cs, x.start_index ≤ (p : Int))
    (h5 : c.index = (n : Int)) (h6 : c.start_index = (p : Int))
    (h7 : chunkFieldsOK c) :
    (cs ++ [c]).map (fun c => c.index) =
        (List.range (n + 1)).map (fun i : Nat => (i : Int))
      ∧ (∀ x ∈ cs ++ [c], chunkFieldsOK x)
      ∧ List.Sorted (· ≤ ·) ((cs ++ [c]).map (fun c => c.start_index)) := by
  refine ⟨?_, ?_, ?_⟩
  · rw [List.range_succ]
    simp only [List.map_append, List.map_cons, List.map_nil]
    rw [h1, h5]
  · intro x hx
    rcases List.mem_append.mp hx with hx | hx
    · exact h2 x hx
    · rw [List.mem_singleton.mp hx]; exact h7
  · rw [List.map_append]
    rw [List.Sorted, List.pairwise_append]
    refine ⟨h3, List.pairwise_singleton _ _, ?_⟩
    intro a ha b hb
    simp only [List.map_cons, List.map_nil, List.mem_singleton] at hb
    subst hb
    rw [h6]
    obtain ⟨x, hx, hx2⟩ := List.mem_map.mp ha
    rw [← hx2]
    exact h4 x hx

theorem seq_len_eq {cs : List Chunk} {n : Nat}
    (h : cs.map (fun c => c.index) =
      (List.range n).map (fun i : Nat => (i : Int))) : cs.length = n := by
  have := congrArg List.length h
  simpa using this

theorem loopInv_iter {split : PyStr → List PyStr} {doc : Document}
    {s s' : LoopState} (h : chunkIter split doc s = Sum.inl s')
    (hinv : loopInv s) : loopInv s' := by
  obtain ⟨h1, h2, h3, h4⟩ := hinv
  rcases htc : s.textChunks with _ | ⟨c0, _ | ⟨c1, rest⟩⟩
  · rw [chunkIter_eq_nil htc] at h; cases h
  · rw [chunkIter_eq_last htc] at h; cases h
  · rcases hor : takeOracle s.oracle with ⟨out, o'⟩
    rcases hres : resplitAndGenerateSummary out s.text c0 c1 s.chunkSummary
      with ⟨nc, ns, nxt, dl⟩
    rw [chunkIter_eq_cons htc hor hres] at h
    by_cases hdeg : nc = [] ∨ pyStrip nc = []
    · rw [if_pos hdeg] at h
      cases h
      exact ⟨h1, h2, h3, h4⟩
    · rw [if_neg hdeg] at h
      cases h
      have happ := seq_append s.emitted s.chunkIndex s.position
        (emitChunk doc nc ns s.chunkIndex s.position) h1 h2 h3 h4 rfl rfl
        (emitChunk_fieldsOK doc nc ns s.chunkIndex s.position)
      refine ⟨happ.1, happ.2.1, happ.2.2, ?_⟩
      intro c hc
      dsimp only at hc ⊢
      have hcast : ((s.position + dl : Nat) : Int) =
          (s.position : Int) + (dl : Int) := by push_cast; ring
      rcases List.mem_append.mp hc with hc | hc
      · have := h4 c hc
        omega
      · rw [List.mem_singleton.mp hc]
        show (s.position : Int) ≤ ((s.position + dl : Nat) : Int)
        omega

theorem chunkSeqOK_iter_final {split : PyStr → List PyStr} {doc : Document}
    {s : LoopState} {cs : List Chunk}
    (h : chunkIter split doc s = Sum.inr cs) (hinv : loopInv s) :
    chunkSeqOK cs := by
  obtain ⟨h1, h2, h3, h4⟩ := hinv
  rcases htc : s.textChunks with _ | ⟨c0, _ | ⟨c1, rest⟩⟩
  · rw [chunkIter_eq_nil htc] at h
    cases h
    refine ⟨?_, h2, h3⟩
    rw [seq_len_eq h1]
    exact h1
  · rw [chunkIter_eq_last htc] at h
    cases h
    have happ := seq_append s.emitted s.chunkIndex s.position
      (emitChunk doc c0 (lastChunkSummary (takeOracle s.oracle).1
        s.chunkSummary) s.chunkIndex s.position) h1 h2 h3 h4 rfl rfl
      (emitChunk_fieldsOK doc c0 _ s.chunkIndex s.position)
    refine ⟨?_, happ.2.1, happ.2.2⟩
    have hl : (s.emitted ++ [emitChunk doc c0 (lastChunkSummary
        (takeOracle s.oracle).1 s.chunkSummary) s.chunkIndex
        s.position]).length = s.chunkIndex + 1 := by
      rw [List.length_append, seq_len_eq h1]
      rfl
    rw [hl]
    exact happ.1
  · rcases hor : takeOracle s.oracle with ⟨out, o'⟩
    rcases hres : resplitAndGenerateSummary out s.text c0 c1 s.chunkSummary
      with ⟨nc, ns, nxt, dl⟩
    rw [chunkIter_eq_cons htc hor hres] at h
    by_cases hdeg : nc = [] ∨ pyStrip nc = []
    · rw [if_pos hdeg] at h; cases h
    · rw [if_neg hdeg] at h; cases h

theorem chunkLoop_seqOK (split : PyStr → List PyStr) (doc : Document) :
    ∀ (fuel : Nat) (s : LoopState) (cs : List Chunk),
      chunkLoop split doc fuel s = some cs → loopInv s → chunkSeqOK cs := by
  intro fuel
  induction fuel with
  | zero => intro s cs h _; cases h
  | succ fuel ih =>
    intro s cs h hinv
    rw [chunkLoop_succ] at h
    rcases hit : chunkIter split doc s with s' | cs'
    · rw [hit] at h
      exact ih s' cs h (loopInv_iter hit hinv)
    · rw [hit] at h
      cases h
      exact chunkSeqOK_iter_final hit hinv

theorem chunkBasicGo_invariants (doc : Document) :
    ∀ (pieces : List (PyStr × Int)) (k : Nat),
      (chunkBasicGo doc k pieces).map (fun c => c.index) =
          (List.range' k pieces.length).map (fun i : Nat => (i : Int))
        ∧ (∀ c ∈ chunkBasicGo doc k pieces, chunkFieldsOK c)
        ∧ (chunkBasicGo doc k pieces).map (fun c => c.start_index) =
            pieces.map (fun p => p.2) := by
  intro pieces
  induction pieces with
  | nil =>
    intro k
    refine ⟨rfl, ?_, rfl⟩
    intro c hc
    cases hc
  | cons p rest ih =>
    intro k
    obtain ⟨ih1, ih2, ih3⟩ := ih (k + 1)
    refine ⟨?_, ?_, ?_⟩
    · show (k : Int) :: (chunkBasicGo doc (k + 1) rest).map (fun c => c.index)
        = (k : Int) :: (List.range' (k + 1) rest.length).map
            (fun i : Nat => (i : Int))
      rw [ih1]
    · intro c hc
      rcases List.mem_cons.mp hc with hceq | hc
      · subst hceq
        constructor
        · rfl
        · show p.2 + (p.1.length : Int) - p.2 = (p.1.length : Int)
          omega
      · exact ih2 c hc
    · show (chunkBasicGo doc k (p :: rest)).map (fun c => c.start_index)
        = p.2 :: rest.map (fun q => q.2)
      show p.2 :: (chunkBasicGo doc (k + 1) rest).map (fun c => c.start_index)
        = p.2 :: rest.map (fun q => q.2)
      rw [ih3]

/-! ## Termination of the refinement loop -/

theorem chunkLoop_one_isSome {split : PyStr → List PyStr} {doc : Document}
    {s : LoopState} (h : ∃ cs, chunkIter split doc s = Sum.inr cs) :
    (chunkLoop split doc 1 s).isSome := by
  obtain ⟨cs, h⟩ := h
  show (match chunkIter split doc s with
    | Sum.inr cs => some cs
    | Sum.inl s' => chunkLoop split doc 0 s').isSome
  rw [h]
  rfl

theorem chunkLoop_isSome_step {split : PyStr → List PyStr} {doc : Document}
    {s s' : LoopState} (h : chunkIter split doc s = Sum.inl s')
    (hn : ∃ n, (chunkLoop split doc n s').isSome) :
    ∃ n, (chunkLoop split doc n s).isSome := by
  obtain ⟨n, hn⟩ := hn
  exact ⟨n + 1, by rw [chunkLoop_succ, h]; exact hn⟩

theorem chunkLoop_terminates_aux (split : PyStr → List PyStr)
    (doc : Document) (hsplit : split [] = []) :
    ∀ (k m : Nat) (s : LoopState), (s.textChunks ≠ [] → s.text ≠ []) →
      s.text.length < k → s.textChunks.length < m →
      ∃ n, (chunkLoop split doc n s).isSome := by
  intro k
  induction k with
  | zero => intro m s _ h _; omega
  | succ k ihk =>
    intro m
    induction m with
    | zero => intro s _ _ h; omega
    | succ m ihm =>
      intro s hP htext htc
      rcases htcs : s.textChunks with _ | ⟨c0, _ | ⟨c1, rest⟩⟩
      · exact ⟨1, chunkLoop_one_isSome ⟨_, chunkIter_eq_nil htcs⟩⟩
      · exact ⟨1, chunkLoop_one_isSome ⟨_, chunkIter_eq_last htcs⟩⟩
      · rcases hor : takeOracle s.oracle with ⟨out, o'⟩
        rcases hres : resplitAndGenerateSummary out s.text c0 c1
          s.chunkSummary with ⟨nc, ns, nxt, dl⟩
        have hdl : dl = nc.length := resplit_dropped_eq_length hres
        have hiter := @chunkIter_eq_cons split doc s c0 c1 rest out o'
          nc ns nxt dl htcs hor hres
        have htext0 : s.text ≠ [] := hP (by rw [htcs]; simp)
        by_cases hdeg : nc = [] ∨ pyStrip nc = []
        · rw [if_pos hdeg] at hiter
          apply chunkLoop_isSome_step hiter
          apply ihm
          · intro _
            exact htext0
          · exact htext
          · show rest.length + 1 < m
            have : s.textChunks.length = rest.length + 2 := by
              rw [htcs]; rfl
            omega
        · rw [if_neg hdeg] at hiter
          apply chunkLoop_isSome_step hiter
          have hnc : nc ≠ [] := fun h => hdeg (Or.inl h)
          have hdl1 : 1 ≤ dl := by
            rw [hdl]
            cases nc
            · exact absurd rfl hnc
            · simp
          have hlen : (pyStrip (s.text.drop dl)).length < s.text.length := by
            have h1 := pyStrip_length_le (s.text.drop dl)
            have h2 : (s.text.drop dl).length = s.text.length - dl :=
              List.length_drop _ _
            have h3 : 0 < s.text.length := List.length_pos.mpr htext0
            omega
          apply ihk ((split (pyStrip (s.text.drop dl))).length + 1)
          · intro htcne
            intro hte
            apply htcne
            show split (pyStrip (s.text.drop dl)) = []
            have : pyStrip (s.text.drop dl) = [] := hte
            rw [this, hsplit]
          · show (pyStrip (s.text.drop dl)).length < k
            omega
          · show (split (pyStrip (s.text.drop dl))).length <
              (split (pyStrip (s.text.drop dl))).length + 1
            omega

/-! ## Claim theorems -/

/-- **C1.**  The LLM-refinement loop of `DocumentChunker._chunk_with_llm`
terminates on every finite input: (a) every iteration with at least two
candidate segments either emits a chunk — and then the emitted part is
non-empty, the cursor advances by at least one character and the remaining
unconsumed text length strictly decreases — or emits no chunk and reduces
the number of candidate segments by exactly one (the degenerate-merge path,
which leaves text and cursor untouched); (b) consequently the loop, run with
enough fuel, reaches its terminal branch: some fuel value makes it return a
result, for any start state whose candidate list comes with non-empty
remaining text (the splitter yields no candidates on empty text). -/
theorem claim_C1_termination (split : PyStr → List PyStr) (doc : Document)
    (hsplit : split [] = []) :
    (∀ (s : LoopState) (c0 c1 : PyStr) (rest : List PyStr),
      s.textChunks = c0 :: c1 :: rest → s.text ≠ [] →
      ∃ s', chunkIter split doc s = Sum.inl s' ∧
        ((s'.emitted.length = s.emitted.length + 1 ∧
          s.position + 1 ≤ s'.position ∧
          s'.text.length < s.text.length) ∨
         (s'.emitted = s.emitted ∧ s'.position = s.position ∧
          s'.textChunks.length + 1 = s.textChunks.length ∧
          s'.text = s.text)))
    ∧ ∀ s : LoopState, (s.textChunks ≠ [] → s.text ≠ []) →
        ∃ n, (chunkLoop split doc n s).isSome := by
  constructor
  · intro s c0 c1 rest htcs htext0
    rcases hor : takeOracle s.oracle with ⟨out, o'⟩
    rcases hres : resplitAndGenerateSummary out s.text c0 c1
      s.chunkSummary with ⟨nc, ns, nxt, dl⟩
    have hdl : dl = nc.length := resplit_dropped_eq_length hres
    have hiter := @chunkIter_eq_cons split doc s c0 c1 rest out o'
      nc ns nxt dl htcs hor hres
    by_cases hdeg : nc = [] ∨ pyStrip nc = []
    · rw [if_pos hdeg] at hiter
      refine ⟨_, hiter, Or.inr ⟨rfl, rfl, ?_, rfl⟩⟩
      show rest.length + 1 + 1 = s.textChunks.length
      rw [htcs]
      rfl
    · rw [if_neg hdeg] at hiter
      have hnc : nc ≠ [] := fun h => hdeg (Or.inl h)
      have hdl1 : 1 ≤ dl := by
        rw [hdl]
        cases nc
        · exact absurd rfl hnc
        · simp
      refine ⟨_, hiter, Or.inl ⟨?_, ?_, ?_⟩⟩
      · show (s.emitted ++ [emitChunk doc nc ns s.chunkIndex
          s.position]).length = s.emitted.length + 1
        rw [List.length_append]
        rfl
      · show s.position + 1 ≤ s.position + dl
        omega
      · show (pyStrip (s.text.drop dl)).length < s.text.length
        have h1 := pyStrip_length_le (s.text.drop dl)
        have h2 : (s.text.drop dl).length = s.text.length - dl :=
          List.length_drop _ _
        have h3 : 0 < s.text.length := List.length_pos.mpr htext0
        omega
  · intro s hP
    exact chunkLoop_terminates_aux split doc hsplit (s.text.length + 1)
      (s.textChunks.length + 1) s hP (by omega) (by omega)

/-- A concrete two-segment loop state with an exhausted oracle. -/
def c1State : LoopState :=
  { text := "ab cd".toList, textChunks := ["ab".toList, "cd".toList],
    chunkIndex := 0, position := 0, chunkSummary := [], emitted := [],
    oracle := [] }

/-- Closed instance of C1: the step progress property and loop termination
at a concrete state and splitter. -/
theorem claim_C1_witness :
    (∃ s', chunkIter (fun t => (splitOnSub (" ".toList) t).filter
        (fun s => s ≠ [])) ⟨"d1".toList, "t".toList, "aa bb cc".toList,
          "f".toList, []⟩ c1State = Sum.inl s' ∧
      ((s'.emitted.length = c1State.emitted.length + 1 ∧
        c1State.position + 1 ≤ s'.position ∧
        s'.text.length < c1State.text.length) ∨
       (s'.emitted = c1State.emitted ∧ s'.position = c1State.position ∧
        s'.textChunks.length + 1 = c1State.textChunks.length ∧
        s'.text = c1State.text)))
    ∧ ∃ n, (chunkLoop (fun t => (splitOnSub (" ".toList) t).filter
        (fun s => s ≠ [])) ⟨"d1".toList, "t".toList, "aa bb cc".toList,
          "f".toList, []⟩ n c1State).isSome := by
  have h := claim_C1_termination (fun t => (splitOnSub (" ".toList) t).filter
    (fun s => s ≠ [])) ⟨"d1".toList, "t".toList, "aa bb cc".toList,
      "f".toList, []⟩ rfl
  exact ⟨h.1 c1State ("ab".toList) ("cd".toList) [] rfl (by decide),
    h.2 c1State (by decide)⟩

/-- **C2.**  In a refinement iteration with at least two candidate segments,
if the generation call raises or the resplit response cannot be parsed
(no `<endline>` tag, or fewer than two `<summary>` blocks), the emitted
chunk's content is exactly the first candidate segment, the running summary
carried to the next iteration (and the emitted chunk's summary) is the
running summary from before the iteration, and the cursor advances by
exactly the first segment's length. -/
theorem claim_C2_fallback (split : PyStr → List PyStr) (doc : Document)
    (s : LoopState) (c0 c1 : PyStr) (rest : List PyStr) (out : GenOutcome)
    (o' : Oracle)
    (htc : s.textChunks = c0 :: c1 :: rest)
    (hor : takeOracle s.oracle = (out, o'))
    (hc0 : pyStrip c0 ≠ [])
    (hfail : out = Except.error () ∨ ∃ resp, out = Except.ok resp ∧
      parseResplitResponse resp (s.text.take (c0.length + c1.length)) =
        Option.none) :
    chunkIter split doc s = Sum.inl
      { text := pyStrip (s.text.drop c0.length),
        textChunks := split (pyStrip (s.text.drop c0.length)),
        chunkIndex := s.chunkIndex + 1,
        position := s.position + c0.length,
        chunkSummary := s.chunkSummary,
        emitted := s.emitted ++
          [emitChunk doc c0 s.chunkSummary s.chunkIndex s.position],
        oracle := o' } := by
  have hres : resplitAndGenerateSummary out s.text c0 c1 s.chunkSummary =
      (c0, s.chunkSummary, s.chunkSummary, c0.length) :=
    resplit_fallback hfail
  rw [chunkIter_eq_cons htc hor hres]
  rw [if_neg ?_]
  intro h
  rcases h with h | h
  · rw [h] at hc0
    exact hc0 rfl
  · exact hc0 h

/-- Closed instance of C2: concrete two-segment state whose generation call
raises; the fallback emits the first segment with the prior summary and
advances the cursor by its length. -/
theorem claim_C2_witness :
    pyStrip ("ab".toList) ≠ [] ∧
    chunkIter (fun t => [t]) ⟨"d1".toList, "t".toList, "ab cd".toList,
        "f".toList, []⟩
      { text := "ab cd".toList, textChunks := ["ab".toList, "cd".toList],
        chunkIndex := 0, position := 0, chunkSummary := "prior".toList,
        emitted := [], oracle := [Except.error ()] } = Sum.inl
      { text := pyStrip (("ab cd".toList).drop ("ab".toList).length),
        textChunks := (fun (t : PyStr) => [t])
          (pyStrip (("ab cd".toList).drop ("ab".toList).length)),
        chunkIndex := 0 + 1,
        position := 0 + ("ab".toList).length,
        chunkSummary := "prior".toList,
        emitted := [] ++
          [emitChunk ⟨"d1".toList, "t".toList, "ab cd".toList, "f".toList,
            []⟩ ("ab".toList) ("prior".toList) 0 0],
        oracle := [] } := by
  constructor
  · decide
  · exact claim_C2_fallback (fun t => [t]) _ _ _ _ _ _ _ rfl rfl (by decide)
      (Or.inl rfl)

/-- **C3 counterexample.**  A concrete degenerate iteration (the parsed
resplit returns an empty part 1): no chunk is emitted, the cursor does not
advance and the first two segments are merged — but the running summary
carried into the next iteration is the part-2 summary `"s2"` produced by
the failed attempt, not the summary `"old"` from before it, contradicting
the claim. -/
theorem claim_C3_counterexample :
    chunkIter (fun t => [t]) ⟨"d".toList, "t".toList, "abcd".toList,
        "f".toList, []⟩
      { text := "abcd".toList, textChunks := ["ab".toList, "cd".toList],
        chunkIndex := 0, position := 0, chunkSummary := "old".toList,
        emitted := [],
        oracle := [Except.ok
          "<endline>0</endline><summary>s1</summary><summary>s2</summary>".toList] }
      = Sum.inl
      { text := "abcd".toList, textChunks := ["abcd".toList],
        chunkIndex := 0, position := 0, chunkSummary := "s2".toList,
        emitted := [], oracle := [] }
    ∧ "s2".toList ≠ "old".toList := by
  constructor
  · rfl
  · decide

/-- **C3 (amended).**  Whenever the resplit result's part 1 is empty or
whitespace-only, no chunk is emitted, the chunk index and cursor do not
advance, the first two candidate segments are merged and the loop restarts
on the merged list — and the running summary carried into the next
iteration is the part-2 summary returned by the resplit attempt (not the
running summary from before the attempt). -/
theorem claim_C3_degenerate (split : PyStr → List PyStr) (doc : Document)
    (s : LoopState) (c0 c1 : PyStr) (rest : List PyStr) (out : GenOutcome)
    (o' : Oracle) (nc ns nxt : PyStr) (dl : Nat)
    (htc : s.textChunks = c0 :: c1 :: rest)
    (hor : takeOracle s.oracle = (out, o'))
    (hres : resplitAndGenerateSummary out s.text c0 c1 s.chunkSummary =
      (nc, ns, nxt, dl))
    (hdeg : nc = [] ∨ pyStrip nc = []) :
    chunkIter split doc s = Sum.inl
      { s with chunkSummary := nxt,
               textChunks := (c0 ++ c1) :: rest,
               oracle := o' } := by
  rw [chunkIter_eq_cons htc hor hres, if_pos hdeg]

/-- Closed instance of the amended C3 at the counterexample state. -/
theorem claim_C3_witness :
    (resplitAndGenerateSummary
      (Except.ok
        "<endline>0</endline><summary>s1</summary><summary>s2</summary>".toList)
      ("abcd".toList) ("ab".toList) ("cd".toList) ("old".toList) =
        ([], "s1".toList, "s2".toList, 0)) ∧
    chunkIter (fun t => [t]) ⟨"d".toList, "t".toList, "abcd".toList,
        "f".toList, []⟩
      { text := "abcd".toList, textChunks := ["ab".toList, "cd".toList],
        chunkIndex := 0, position := 0, chunkSummary := "old".toList,
        emitted := [],
        oracle := [Except.ok
          "<endline>0</endline><summary>s1</summary><summary>s2</summary>".toList] }
      = Sum.inl
      { text := "abcd".toList, textChunks := [("ab".toList ++ "cd".toList)],
        chunkIndex := 0, position := 0, chunkSummary := "s2".toList,
        emitted := [], oracle := [] } := by
  refine ⟨rfl, ?_⟩
  exact claim_C3_degenerate (fun t => [t]) _ _ _ _ _ _ _ _ _ _ _
    rfl rfl rfl (Or.inl rfl)

/-- The document of the C5 counterexample. -/
def c5Doc : Document :=
  ⟨"d5".toList, "t5".toList, "ab b ab".toList, "p5".toList, []⟩

/-- **C5 counterexample.**  The basic engine does not always produce
non-decreasing `start_index`: on the document `"ab b ab"` with
`chunk_size=3, chunk_overlap=2`, separators `[" "]` — a configuration the
constructor accepts — the splitter's `create_documents` reports start
offsets `0, 1, 0`: its search offset `index + previous_len - overlap`
backtracks, and `text.find` hits the `"b"` inside the first `"ab"` and then
the first `"ab"` again.  All other parts of the claim hold on this run
(`char_count`/offset equations and indices `0..N-1`). -/
theorem claim_C5_counterexample :
    simpleChunkerInit 3 2 = Except.ok ()
    ∧ (simpleChunkDocument 3 2 [" ".toList] c5Doc).map
        (fun c => (c.content, c.index, c.start_index, c.end_index)) =
      [("ab".toList, 0, 0, 2), ("b".toList, 1, 1, 2), ("ab".toList, 2, 0, 2)]
    ∧ ¬ List.Sorted (· ≤ ·) ((simpleChunkDocument 3 2 [" ".toList]
        c5Doc).map (fun c => c.start_index)) := by
  refine ⟨rfl, by decide, by decide⟩

/-- **C5 (amended).**  Every chunk sequence produced by either engine
satisfies the size/offset invariants (`char_count = len(content)`,
`end_index - start_index = char_count`) and carries indices exactly
`0..N-1` in order.  `start_index` is non-decreasing for every sequence
produced by the LLM-refined engine (for every splitter, document, oracle
and sufficient fuel); for the basic engine the start offsets are whatever
the underlying splitter's `create_documents` reports, and are
non-decreasing exactly in the runs where those reported offsets are —
which its backtracking search does not guarantee. -/
theorem claim_C5_invariants :
    (∀ (split : PyStr → List PyStr) (doc : Document) (oracle : Oracle)
      (fuel : Nat) (cs : List Chunk),
      chunkWithLLM split doc oracle fuel = some cs → chunkSeqOK cs)
    ∧ ∀ (doc : Document) (pieces : List (PyStr × Int)),
        (chunkBasicAbs doc pieces).map (fun c => c.index) =
            (List.range (chunkBasicAbs doc pieces).length).map
              (fun i : Nat => (i : Int))
          ∧ (∀ c ∈ chunkBasicAbs doc pieces, chunkFieldsOK c)
          ∧ ((chunkBasicAbs doc pieces).map (fun c => c.start_index) =
              pieces.map (fun p => p.2))
          ∧ (List.Sorted (· ≤ ·) (pieces.map (fun p => p.2)) →
              List.Sorted (· ≤ ·) ((chunkBasicAbs doc pieces).map
                (fun c => c.start_index))) := by
  constructor
  · intro split doc oracle fuel cs h
    refine chunkLoop_seqOK split doc fuel _ cs h ?_
    refine ⟨rfl, ?_, ?_, ?_⟩
    · intro c hc; cases hc
    · exact List.sorted_nil
    · intro c hc; cases hc
  · intro doc pieces
    obtain ⟨h1, h2, h3⟩ := chunkBasicGo_invariants doc pieces 0
    refine ⟨?_, h2, h3, ?_⟩
    · have hlen : (chunkBasicGo doc 0 pieces).length = pieces.length := by
        have := congrArg List.length h1
        simpa using this
      show (chunkBasicGo doc 0 pieces).map (fun c => c.index) =
        (List.range (chunkBasicGo doc 0 pieces).length).map
          (fun i : Nat => (i : Int))
      rw [hlen, List.range_eq_range']
      exact h1
    · intro hsorted
      show List.Sorted (· ≤ ·)
        ((chunkBasicGo doc 0 pieces).map (fun c => c.start_index))
      rw [h3]
      exact hsorted

/-- Concrete whitespace splitter for closed instances. -/
def wSplit : PyStr → List PyStr :=
  fun t => (splitOnSub (" ".toList) t).filter (fun s => s ≠ [])

/-- Concrete document for closed instances. -/
def wDoc : Document :=
  ⟨"d1".toList, "t".toList, "aa bb cc".toList, "f".toList, []⟩

/-- The chunk sequence the LLM engine produces on `wDoc` with an exhausted
oracle (every generation call raises, so every segment falls back). -/
def wChunks : List Chunk :=
  [emitChunk wDoc ("aa".toList) [] 0 0,
   emitChunk wDoc ("bb".toList) [] 1 2,
   emitChunk wDoc ("cc".toList) [] 2 4]

/-- Closed instance of C5 (amended): a complete LLM-refined run (fallback
oracle) satisfies the full sequence invariants, and a basic-engine run on
concrete pieces satisfies the per-chunk/index invariants, with sorted
reported offsets yielding sorted `start_index`. -/
theorem claim_C5_witness :
    (chunkWithLLM wSplit wDoc [] 10 = some wChunks ∧ chunkSeqOK wChunks)
    ∧ (∀ c ∈ chunkBasicAbs
        ⟨"d2".toList, "t".toList, "x".toList, "f".toList, []⟩
        [("ab".toList, (0 : Int)), ("cd".toList, 5)], chunkFieldsOK c)
    ∧ (List.Sorted (· ≤ ·)
        ([("ab".toList, (0 : Int)), ("cd".toList, 5)].map (fun p => p.2))
      ∧ List.Sorted (· ≤ ·) ((chunkBasicAbs
          ⟨"d2".toList, "t".toList, "x".toList, "f".toList, []⟩
          [("ab".toList, 0), ("cd".toList, 5)]).map
            (fun c => c.start_index))) := by
  have h : chunkWithLLM wSplit wDoc [] 10 = some wChunks := by decide
  refine ⟨⟨h, claim_C5_invariants.1 _ _ _ _ _ h⟩,
    (claim_C5_invariants.2 _ _).2.1, by decide, ?_⟩
  exact (claim_C5_invariants.2 _ _).2.2.2 (by decide)

/-- **C4.**  For every chunk list and every positive concurrency setting,
and for every completion order of the thread pool, the extraction batch
never raises and returns (up to the unordered collection the spec allows) the
union of the per-chunk atom lists; a chunk whose generation call raises, or
whose response fails to parse, contributes exactly the empty list, leaving
the other chunks' extractions unaffected. -/
theorem claim_C4_batch_isolation :
    (∀ (gen : PyStr → GenOutcome) (maxA numParallel : Nat)
      (chunks completed : List Chunk),
      1 ≤ numParallel → completed.Perm chunks →
      (extractAtomsBatch gen maxA numParallel chunks completed).Perm
        ((chunks.map (fun c => (extractAtoms gen maxA c).1)).flatten))
    ∧ (∀ (gen : PyStr → GenOutcome) (maxA : Nat) (c : Chunk),
        gen (atomPrompt c) = Except.error () →
        (extractAtoms gen maxA c).1 = [])
    ∧ (∀ (gen : PyStr → GenOutcome) (maxA : Nat) (c : Chunk)
        (resp : PyStr) (e : TagParseError),
        gen (atomPrompt c) = Except.ok resp →
        tagParseResponse resp = Except.error e →
        (extractAtoms gen maxA c).1 = []) := by
  refine ⟨?_, ?_, ?_⟩
  · intro gen maxA numParallel chunks completed hnp hperm
    unfold extractAtomsBatch
    by_cases hc : chunks = []
    · rw [if_pos hc]
      rw [hc] at hperm ⊢
      rw [List.Perm.eq_nil hperm] at hperm
      simp
    · rw [if_neg hc]
      by_cases h1 : numParallel = 1
      · rw [if_pos h1]
        unfold singleThreadExtract
        exact List.Perm.refl _
      · rw [if_neg h1]
        unfold multiThreadExtract
        exact (hperm.map (fun c => (extractAtoms gen maxA c).1)).flatten
  · intro gen maxA c hg
    unfold extractAtoms
    split
    · rfl
    · rw [hg]
  · intro gen maxA c resp e hg hp
    unfold extractAtoms
    split
    · rfl
    · rw [hg]
      show (extractAtomsFromResponse maxA c resp).1 = []
      unfold extractAtomsFromResponse
      rw [hp]

/-- Concrete chunks for the batch scenario. -/
def batchChunk (cid content : PyStr) : Chunk :=
  { id := cid, document_id := "d".toList, content := content, summary := [],
    index := 0, char_count := (content.length : Int), start_index := 0,
    end_index := (content.length : Int), metadata := [],
    created_at := dtZero }

/-- A generation capability that raises exactly on the middle chunk's
prompt and otherwise returns a one-question array. -/
def batchGen : PyStr → GenOutcome := fun p =>
  if p = atomPrompt (batchChunk ("c2".toList) ("two".toList)) then
    Except.error ()
  else Except.ok ("[\"q\"]".toList)

/-- Closed instance of C4: a batch of 3 chunks at concurrency 2 where one
chunk's generation call raises yields (in some completion order) exactly the
atoms of the two succeeding chunks, and the failing chunk contributes none. -/
theorem claim_C4_witness :
    (1 ≤ 2 ∧
      [batchChunk ("c2".toList) ("two".toList),
       batchChunk ("c3".toList) ("three".toList),
       batchChunk ("c1".toList) ("one".toList)].Perm
      [batchChunk ("c1".toList) ("one".toList),
       batchChunk ("c2".toList) ("two".toList),
       batchChunk ("c3".toList) ("three".toList)])
    ∧ (extractAtomsBatch batchGen 10 2
        [batchChunk ("c1".toList) ("one".toList),
         batchChunk ("c2".toList) ("two".toList),
         batchChunk ("c3".toList) ("three".toList)]
        [batchChunk ("c2".toList) ("two".toList),
         batchChunk ("c3".toList) ("three".toList),
         batchChunk ("c1".toList) ("one".toList)]).Perm
        (([batchChunk ("c1".toList) ("one".toList),
           batchChunk ("c2".toList) ("two".toList),
           batchChunk ("c3".toList) ("three".toList)].map
          (fun c => (extractAtoms batchGen 10 c).1)).flatten)
    ∧ (extractAtoms batchGen 10
        (batchChunk ("c2".toList) ("two".toList))).1 = [] := by
  refine ⟨⟨by omega, by decide⟩, ?_, ?_⟩
  · exact claim_C4_batch_isolation.1 batchGen 10 2 _ _ (by omega) (by decide)
  · exact claim_C4_batch_isolation.2.1 batchGen 10 _ (by decide)

/-- **C6.**  A chunk whose content is empty or whitespace-only
short-circuits `AtomExtractor.extract_atoms`: the atom list is empty and
the generation capability is invoked zero times. -/
theorem claim_C6_empty_short_circuit :
    ∀ (gen : PyStr → GenOutcome) (maxA : Nat) (chunk : Chunk),
      pyStrip chunk.content = [] → extractAtoms gen maxA chunk = ([], 0) := by
  intro gen maxA chunk h
  unfold extractAtoms
  rw [if_pos (Or.inr h)]

/-- Closed instance of C6 on a whitespace-only chunk. -/
theorem claim_C6_witness :
    pyStrip (batchChunk ("w".toList) ("  \t ".toList)).content = []
    ∧ extractAtoms batchGen 10 (batchChunk ("w".toList) ("  \t ".toList)) =
        ([], 0) := by
  refine ⟨by decide, ?_⟩
  exact claim_C6_empty_short_circuit batchGen 10 _ (by decide)

/-- **C7 counterexample.**  Constructing either splitter with the overlap
exactly equal to the target size is accepted: the only constructor check
(inherited from the underlying `TextSplitter`) rejects strictly larger
overlaps only, so the claim's `overlap == target_size must fail` is false. -/
theorem claim_C7_counterexample :
    simpleChunkerInit 100 100 = Except.ok () ∧
    documentChunkerInit 100 100 false true = Except.ok () := ⟨rfl, rfl⟩

/-- **C7 (amended).**  Construction of `SimpleChunker` or `DocumentChunker`
fails fast with the configuration error exactly when the overlap is
strictly greater than the target size; overlap equal to the target size is
accepted. -/
theorem claim_C7_overlap_check :
    ∀ (cs ov : Nat) (ll : Bool),
      (simpleChunkerInit cs ov = Except.error () ↔ cs < ov)
      ∧ (documentChunkerInit cs ov ll true =
          Except.error ChunkerInitError.overlapTooLarge ↔ cs < ov)
      ∧ simpleChunkerInit cs cs = Except.ok ()
      ∧ documentChunkerInit cs cs ll true = Except.ok () := by
  intro cs ov ll
  unfold documentChunkerInit simpleChunkerInit splitterInitCheck
  by_cases h : cs < ov
  · simp [h, Nat.lt_irrefl]
  · simp [h, Nat.lt_irrefl]

/-- Scan for the `]` that closes the bracket opened just before the input,
counting bracket nesting; returns the offset of that closing bracket. -/
def matchBracketEnd : Nat → PyStr → Option Nat
  | _, [] => Option.none
  | depth, c :: cs =>
    if c = ']' then
      if depth = 0 then some 0 else (matchBracketEnd (depth - 1) cs).map (· + 1)
    else if c = '[' then (matchBracketEnd (depth + 1) cs).map (· + 1)
    else (matchBracketEnd depth cs).map (· + 1)

/-- Modelled from the spec: the "first top-level bracketed array substring
in the text" that §4.3's list grammar says the fallback parses — the
substring from the first `[` to its matching `]` (bracket-depth aware),
which the repository's non-greedy `re.search(r"\[.*?\]", ...)` is not. -/
def specFirstTopLevelArray (s : PyStr) : Option PyStr :=
  match findSubIdx s ['['] with
  | Option.none => Option.none
  | some i =>
    let after := s.drop (i + 1)
    (matchBracketEnd 0 after).map (fun j => '[' :: after.take j ++ [']'])

/-- **C8 counterexample.**  For the response `"See [[1], [2]] ok"`, direct
JSON parsing fails and the first top-level bracketed array substring
`"[[1], [2]]"` parses as a JSON array — so the claim requires the parser to
recover it — yet `_parse_response` raises its typed error, because its
non-greedy `\[.*?\]` match stops at the first `]` and captures the
unparsable `"[[1]"`. -/
theorem claim_C8_counterexample :
    jsonLoads (pyStrip ("See [[1], [2]] ok".toList)) = Option.none
    ∧ specFirstTopLevelArray ("See [[1], [2]] ok".toList) =
        some ("[[1], [2]]".toList)
    ∧ jsonLoads ("[[1], [2]]".toList) =
        some (PyJson.arr [PyJson.arr [PyJson.int 1],
          PyJson.arr [PyJson.int 2]])
    ∧ firstBracketMatch ("See [[1], [2]] ok".toList) = some ("[[1]".toList)
    ∧ tagParseResponse ("See [[1], [2]] ok".toList) =
        Except.error TagParseError.cannotParse :=
  ⟨rfl, rfl, rfl, rfl, rfl⟩

/-- **C8 (amended).**  `AtomExtractor._parse_response` first attempts direct
JSON parsing of the stripped response; if that fails it takes the substring
from the first `[` to the earliest following `]` (the non-greedy match,
which is not top-level aware) and parses that, so
`'Here are the questions: ["Q1?", "Q2?"]'` yields exactly `"Q1?"`, `"Q2?"`
in order; and if both attempts fail it raises a typed parse error. -/
theorem claim_C8_recovery :
    (∀ (r : PyStr) (qs : List PyJson),
      jsonLoads (pyStrip r) = some (PyJson.arr qs) →
      tagParseResponse r = Except.ok ((qs.filter pyTruthy).map pyStrOf))
    ∧ (∀ (r sub : PyStr) (qs : List PyJson),
        jsonLoads (pyStrip r) = Option.none →
        firstBracketMatch r = some sub →
        jsonLoads sub = some (PyJson.arr qs) →
        tagParseResponse r = Except.ok ((qs.filter pyTruthy).map pyStrOf))
    ∧ (∀ r : PyStr, jsonLoads (pyStrip r) = Option.none →
        firstBracketMatch r = Option.none →
        tagParseResponse r = Except.error TagParseError.cannotParse)
    ∧ (∀ r sub : PyStr, jsonLoads (pyStrip r) = Option.none →
        firstBracketMatch r = some sub → jsonLoads sub = Option.none →
        tagParseResponse r = Except.error TagParseError.cannotParse)
    ∧ tagParseResponse ("Here are the questions: [\"Q1?\", \"Q2?\"]".toList)
        = Except.ok ["Q1?".toList, "Q2?".toList] := by
  refine ⟨?_, ?_, ?_, ?_, rfl⟩
  · intro r qs h
    unfold tagParseResponse
    rw [h]
  · intro r sub qs h1 h2 h3
    unfold tagParseResponse
    simp only [h1, h2, h3]
  · intro r h1 h2
    unfold tagParseResponse
    simp only [h1, h2]
  · intro r sub h1 h2 h3
    unfold tagParseResponse
    simp only [h1, h2, h3]

/-- Closed instance of C8 (amended): the bracket-substring fallback on a
fresh response. -/
theorem claim_C8_witness :
    tagParseResponse ("My list: [\"W1\", \"W2\"]".toList) =
      Except.ok ["W1".toList, "W2".toList] := by
  have h := claim_C8_recovery.2.1 ("My list: [\"W1\", \"W2\"]".toList)
    ("[\"W1\", \"W2\"]".toList)
    [PyJson.str ("W1".toList), PyJson.str ("W2".toList)] rfl rfl rfl
  exact h

/-- The document of the C9 scenario. -/
def c9Doc : Document :=
  ⟨"d9".toList, "t9".toList, "A. B. C.".toList, "p9".toList, []⟩

/-- **C9 counterexample.**  On the document `"A. B. C."` with separator
list `[". "]` and a large target size, the fixed-rule splitter returns one
segment — but its content is `"A. B. C."` with the final period retained,
not `"A. B. C"`: the trailing `"."` is not an occurrence of the separator
`". "`, and the separator is re-inserted between merged pieces. -/
theorem claim_C9_counterexample :
    (simpleChunkDocument 100 20 [". ".toList] c9Doc).map
        (fun c => (c.content, c.index)) =
      [("A. B. C.".toList, (0 : Int))]
    ∧ "A. B. C.".toList ≠ "A. B. C".toList := by
  constructor
  · rfl
  · decide

/-- **C9 (amended).**  On the document `"A. B. C."` with separators
`[". "]` and target size large enough to hold the whole text, the
fixed-rule splitter produces exactly one segment with content
`"A. B. C."` (interior separators re-inserted by merging, the final period
retained because `"."` alone is not the separator `". "`), `index = 0` and
`start_index = 0`. -/
theorem claim_C9_scenario :
    simpleChunkDocument 100 20 [". ".toList] c9Doc =
      [{ id := [], document_id := "d9".toList,
         content := "A. B. C.".toList, summary := [], index := 0,
         char_count := 8, start_index := 0, end_index := 8,
         metadata := [("source".toList, PyVal.str ("p9".toList)),
                      ("title".toList, PyVal.str ("t9".toList)),
                      ("document_id".toList, PyVal.str ("d9".toList))],
         created_at := dtZero }] := by
  decide

/-- **C10.**  Serialization of the data models round-trips: for every
`Chunk` whose timestamp is a representable `datetime` and whose fields
satisfy the `__post_init__` invariant (`char_count == 0` only with empty
content), `Chunk.from_dict(chunk.to_dict())` restores it field for field
(`created_at` via ISO format); likewise for every `Atom`. -/
theorem claim_C10_roundtrip :
    (∀ c : Chunk, c.created_at.valid → (c.char_count = 0 → c.content = []) →
      Chunk.from_dict c.to_dict = some c)
    ∧ (∀ a : Atom, a.created_at.valid →
        Atom.from_dict a.to_dict = some a) := by
  constructor
  · intro c hv hcc
    unfold Chunk.to_dict Chunk.from_dict
    simp only [iso_roundtrip c.created_at hv]
    unfold chunkPostInit
    rw [if_neg ?_]
    intro h
    exact h.2 (hcc h.1)
  · intro a hv
    unfold Atom.to_dict Atom.from_dict
    simp only [iso_roundtrip a.created_at hv]

/-- A concrete chunk for the round-trip instance. -/
def rtChunk : Chunk :=
  { id := "id1".toList, document_id := "doc".toList,
    content := "hello".toList, summary := "sum".toList, index := 3,
    char_count := 5, start_index := 7, end_index := 12,
    metadata := [("k".toList, PyVal.int 3)],
    created_at := ⟨2024, 5, 17, 10, 30, 5, 123456⟩ }

/-- A concrete atom for the round-trip instance. -/
def rtAtom : Atom :=
  { id := "a1".toList, chunk_id := "c1".toList, question := "Q?".toList,
    answer := [], metadata := [],
    created_at := ⟨2023, 12, 31, 23, 59, 59, 0⟩ }

/-- Closed instance of C10 on concrete values (one timestamp with
microseconds, one without). -/
theorem claim_C10_witness :
    rtChunk.created_at.valid
    ∧ (rtChunk.char_count = 0 → rtChunk.content = [])
    ∧ Chunk.from_dict rtChunk.to_dict = some rtChunk
    ∧ rtAtom.created_at.valid
    ∧ Atom.from_dict rtAtom.to_dict = some rtAtom := by
  refine ⟨by decide, by decide, ?_, by decide, ?_⟩
  · exact claim_C10_roundtrip.1 rtChunk (by decide) (by decide)
  · exact claim_C10_roundtrip.2 rtAtom (by decide)

end Pikee
